import Mathlib

/-
Shallow embedding of the growth-rs cluster-autoscaler core
(src/growthrs/src/offering.rs, optimiser.rs, controller.rs,
node_request.rs, providers/fake.rs), together with theorems checking the
natural-language specification against the code.

Machine integers (u32/u64) are modelled as Nat with explicit reductions
modulo 2 ^ 32 / 2 ^ 64 at the points where the Rust code can overflow or
truncate.  Floating-point solver values are modelled as rationals.  The ILP
backend (HiGHS) is abstracted: a backend outcome is either a resolution
error or an assignment of rational values to the decision variables; the
constraints the Rust code hands to the backend are stated as predicates on
such assignments.
-/

namespace GrowthRs

/- ── Domain model (offering.rs) ─────────────────────────────────────── -/

/-- GPU model enumeration from offering.rs. -/
inductive GpuModel where
  | NvidiaT4
  | NvidiaA100
  | NvidiaL4
  | NvidiaH100
  | NvidiaA10G
  | Other (name : String)
  deriving DecidableEq

/-- Resource bundle from offering.rs: vCPU count, memory in MiB, optional
ephemeral storage in GiB, GPU count, optional GPU model. -/
structure Resources where
  cpu : Nat
  memory_mib : Nat
  ephemeral_storage_gib : Option Nat
  gpu : Nat
  gpu_model : Option GpuModel
  deriving DecidableEq

/-- Newtype for a provider's instance-type identifier (offering.rs). -/
structure InstanceType where
  val : String
  deriving DecidableEq

/-- A purchasable node type (offering.rs).  The hourly cost is an f64 in the
source; it is modelled as a rational. -/
structure Offering where
  instance_type : InstanceType
  resources : Resources
  cost_per_hour : ℚ
  deriving DecidableEq

/-- Unique identity of a pod: namespace and name (offering.rs).
`namespace` is a Lean keyword, hence the trailing underscore. -/
structure PodId where
  namespace_ : String
  name : String
  deriving DecidableEq

/-- A pod's identity plus its summed resource requests (offering.rs). -/
structure PodResources where
  id : PodId
  resources : Resources
  deriving DecidableEq

instance : Inhabited Resources :=
  ⟨{ cpu := 0, memory_mib := 0, ephemeral_storage_gib := none, gpu := 0, gpu_model := none }⟩

instance : Inhabited Offering :=
  ⟨{ instance_type := ⟨""⟩, resources := default, cost_per_hour := 0 }⟩

instance : Inhabited PodResources :=
  ⟨{ id := ⟨"", ""⟩, resources := default }⟩

/-- Offering::satisfies from offering.rs, line for line:
cpu, memory, gpu dominance, gpu-model match when the demand names one,
ephemeral storage present and sufficient when the demand names one. -/
def Offering.satisfies (o : Offering) (need : Resources) : Bool :=
  decide (need.cpu ≤ o.resources.cpu)
    && decide (need.memory_mib ≤ o.resources.memory_mib)
    && decide (need.gpu ≤ o.resources.gpu)
    && (match need.gpu_model with
        | some needed_gpu_model =>
          match o.resources.gpu_model with
          | some provided_gpu_model => needed_gpu_model == provided_gpu_model
          | none => false
        | none => true)
    && (match need.ephemeral_storage_gib with
        | some required_storage =>
          match o.resources.ephemeral_storage_gib with
          | some provided_storage => decide (required_storage ≤ provided_storage)
          | none => false
        | none => true)

/- ── Resource-quantity parsing (offering.rs) ────────────────────────── -/

/-- Error carrying the unparseable raw string (offering.rs
QuantityParseError; the ParseIntError cause is not modelled further). -/
structure QuantityParseError where
  raw : String
  deriving DecidableEq

/-- Decimal-digit run to a number: the digit-consuming core of Rust's
str::parse for unsigned integers.  Fails on an empty run or a non-digit. -/
def parseDigits (cs : List Char) : Option Nat :=
  if cs.isEmpty then none
  else if cs.all Char.isDigit then
    some (cs.foldl (fun acc c => acc * 10 + (c.toNat - 48)) 0)
  else none

/-- Rust's str::parse for unsigned integers accepts one optional leading
plus sign. -/
def dropPlus (cs : List Char) : List Char :=
  match cs with
  | c :: rest => if c = '+' then rest else c :: rest
  | [] => []

/-- str::parse::<uN> : digits (after an optional plus sign) with an
overflow check against 2 ^ width. -/
def parseUInt (width : Nat) (cs : List Char) : Option Nat :=
  match parseDigits (dropPlus cs) with
  | some n => if n < 2 ^ width then some n else none
  | none => none

/-- Rust u32::div_ceil / u64::div_ceil for a positive divisor. -/
def divCeil (a b : Nat) : Nat := (a + b - 1) / b

/-- str::strip_suffix: remove a suffix when present, else signal none. -/
def stripSuffixChars (cs suf : List Char) : Option (List Char) :=
  if suf <:+ cs then some (cs.take (cs.length - suf.length)) else none

/-- parse_cpu from offering.rs: bare integer (whole cores) or integer with
an m suffix (millicores, divided by 1000 rounding up). -/
def parse_cpu (q : String) : Except QuantityParseError Nat :=
  match stripSuffixChars q.data ['m'] with
  | some millis =>
    match parseUInt 32 millis with
    | some m => .ok (divCeil m 1000)
    | none => .error ⟨q⟩
  | none =>
    match parseUInt 32 q.data with
    | some n => .ok n
    | none => .error ⟨q⟩

/-- parse_memory_mib from offering.rs: Gi is times 1024 (u32 multiply, so
reduced mod 2 ^ 32), Mi as-is, Ki divided by 1024 rounding up, bare bytes
parsed as u64 then divided by 1048576 rounding up and cast to u32. -/
def parse_memory_mib (q : String) : Except QuantityParseError Nat :=
  match stripSuffixChars q.data ['G', 'i'] with
  | some v =>
    match parseUInt 32 v with
    | some n => .ok (n * 1024 % 2 ^ 32)
    | none => .error ⟨q⟩
  | none =>
    match stripSuffixChars q.data ['M', 'i'] with
    | some v =>
      match parseUInt 32 v with
      | some n => .ok n
      | none => .error ⟨q⟩
    | none =>
      match stripSuffixChars q.data ['K', 'i'] with
      | some v =>
        match parseUInt 32 v with
        | some n => .ok (divCeil n 1024)
        | none => .error ⟨q⟩
      | none =>
        match parseUInt 64 q.data with
        | some n => .ok (divCeil n (1024 * 1024) % 2 ^ 32)
        | none => .error ⟨q⟩

/-- parse_storage_gib from offering.rs: Gi as-is, Mi divided by 1024
rounding up, Ki parsed as u64 then divided by 1048576 rounding up and cast
to u32, bare bytes parsed as u64 then divided by 2 ^ 30 rounding up and
cast to u32. -/
def parse_storage_gib (q : String) : Except QuantityParseError Nat :=
  match stripSuffixChars q.data ['G', 'i'] with
  | some v =>
    match parseUInt 32 v with
    | some n => .ok n
    | none => .error ⟨q⟩
  | none =>
    match stripSuffixChars q.data ['M', 'i'] with
    | some v =>
      match parseUInt 32 v with
      | some n => .ok (divCeil n 1024)
      | none => .error ⟨q⟩
    | none =>
      match stripSuffixChars q.data ['K', 'i'] with
      | some v =>
        match parseUInt 64 v with
        | some n => .ok (divCeil n (1024 * 1024) % 2 ^ 32)
        | none => .error ⟨q⟩
      | none =>
        match parseUInt 64 q.data with
        | some n => .ok (divCeil n (1024 * 1024 * 1024) % 2 ^ 32)
        | none => .error ⟨q⟩

/- ── Kubernetes pod model (the fragment offering.rs reads) ──────────── -/

/-- k8s Quantity is a newtype over a string. -/
abbrev Quantity := String

/-- The requests map of a container's resources block; BTreeMap keys are
unique, lookup is by key. -/
structure ResourceRequirements where
  requests : Option (List (String × Quantity))
  deriving DecidableEq

/-- BTreeMap::get on the requests map. -/
def requestsGet (reqs : List (String × Quantity)) (key : String) : Option Quantity :=
  (reqs.find? (fun kv => kv.1 == key)).map (fun kv => kv.2)

structure Container where
  resources : Option ResourceRequirements
  deriving DecidableEq

structure PodSpec where
  containers : List Container
  deriving DecidableEq

/-- Pod metadata: namespace and name are optional in the k8s API. -/
structure ObjectMeta where
  namespace_ : Option String
  name : Option String
  deriving DecidableEq

structure Pod where
  metadata : ObjectMeta
  spec : Option PodSpec
  deriving DecidableEq

instance : Inhabited Pod := ⟨{ metadata := ⟨none, none⟩, spec := none }⟩

/-- Accumulator of the summing loop in Resources::from_pod. -/
structure RAcc where
  cpu : Nat
  memory_mib : Nat
  gpu : Nat
  ephemeral_storage_gib : Option Nat
  deriving DecidableEq

/-- One iteration of the container loop in Resources::from_pod: skip a
container without a resources block or without requests, otherwise add the
parsed cpu / memory / gpu / ephemeral-storage requests (u32 additions,
hence mod 2 ^ 32), propagating the first parse error. -/
def addContainer (acc : RAcc) (c : Container) : Except QuantityParseError RAcc :=
  match c.resources with
  | none => .ok acc
  | some res =>
    match res.requests with
    | none => .ok acc
    | some reqs => do
      let acc ← match requestsGet reqs "cpu" with
        | some q => do
          let v ← parse_cpu q
          Except.ok { acc with cpu := (acc.cpu + v) % 2 ^ 32 }
        | none => Except.ok acc
      let acc ← match requestsGet reqs "memory" with
        | some q => do
          let v ← parse_memory_mib q
          Except.ok { acc with memory_mib := (acc.memory_mib + v) % 2 ^ 32 }
        | none => Except.ok acc
      let acc ← match requestsGet reqs "nvidia.com/gpu" with
        | some q =>
          match parseUInt 32 q.data with
          | some v => Except.ok { acc with gpu := (acc.gpu + v) % 2 ^ 32 }
          | none => Except.error ⟨q⟩
        | none => Except.ok acc
      match requestsGet reqs "ephemeral-storage" with
      | some q => do
        let gib ← parse_storage_gib q
        let total := (acc.ephemeral_storage_gib.getD 0 + gib) % 2 ^ 32
        Except.ok { acc with ephemeral_storage_gib := some total }
      | none => Except.ok acc

/-- The container loop of Resources::from_pod. -/
def sumContainers : List Container → RAcc → Except QuantityParseError RAcc
  | [], acc => .ok acc
  | c :: rest, acc => do
    let acc ← addContainer acc c
    sumContainers rest acc

/-- Resources::from_pod: sum requests across all containers of the pod's
spec (an absent spec contributes no containers); gpu_model is left none. -/
def Resources.from_pod (pod : Pod) : Except QuantityParseError Resources := do
  let containers := (pod.spec.map PodSpec.containers).getD []
  let acc ← sumContainers containers ⟨0, 0, 0, none⟩
  Except.ok
    { cpu := acc.cpu, memory_mib := acc.memory_mib,
      ephemeral_storage_gib := acc.ephemeral_storage_gib, gpu := acc.gpu,
      gpu_model := none }

/-- PodResources::from_pod: pod identity from metadata (missing namespace
or name becomes the empty string) plus the summed resources. -/
def PodResources.from_pod (pod : Pod) : Except QuantityParseError PodResources := do
  let res ← Resources.from_pod pod
  Except.ok
    { id := ⟨pod.metadata.namespace_.getD "", pod.metadata.name.getD ""⟩,
      resources := res }

/- ── Cluster-state assembly (controller.rs) ─────────────────────────── -/

structure ClusterState where
  demands : List PodResources
  offerings : List Offering
  deriving DecidableEq

/-- The collect::<Result<Vec, _>> over PodResources::from_pod inside
gather_cluster_state: parse pods in order, stopping at the first error. -/
def collectPodResources : List Pod → Except QuantityParseError (List PodResources)
  | [] => .ok []
  | p :: ps => do
    let r ← PodResources.from_pod p
    let rs ← collectPodResources ps
    Except.ok (r :: rs)

/-- gather_cluster_state from controller.rs, with the two I/O reads (the
orchestrator's unschedulable-pod list and the provider's offerings
catalogue) supplied as inputs: parse every pod, any parse error aborts. -/
def gather_cluster_state (pods : List Pod) (offerings : List Offering) :
    Except QuantityParseError ClusterState := do
  let demands ← collectPodResources pods
  Except.ok { demands, offerings }

/-- ClusterState::suitable_offerings: keep the offerings that satisfy at
least one demand. -/
def ClusterState.suitable_offerings (s : ClusterState) : List Offering :=
  s.offerings.filter (fun offering =>
    s.demands.any (fun demand => offering.satisfies demand.resources))

/- ── Placement optimiser (optimiser.rs) ─────────────────────────────── -/

/-- Solver options (optimiser.rs SolveOptions); both fields are f64 in the
source, modelled as rationals.  They parameterise only the abstracted ILP
backend (objective penalty, wall-clock limit). -/
structure SolveOptions where
  unmet_demand_penalty : ℚ
  time_limit_seconds : ℚ

/-- Default SolveOptions from optimiser.rs. -/
def SolveOptions.default_ : SolveOptions :=
  { unmet_demand_penalty := 1000000, time_limit_seconds := 30 }

/-- SolveError from optimiser.rs (the good_lp ResolutionError cause is not
modelled further). -/
inductive SolveError where
  | Resolution
  deriving DecidableEq

/-- A node the solver decided to provision (optimiser.rs). -/
structure PotentialNode where
  offering : Offering
  pods : List PodId
  deriving DecidableEq

inductive PlacementSolution where
  | AllPlaced (nodes : List PotentialNode)
  | NoDemands
  | IncompletePlacement (nodes : List PotentialNode) (unmet : List PodResources)
  deriving DecidableEq

/-- build_candidate_offerings: (type_index, instance_index) pairs, each
offering type replicated max_instances times. -/
def build_candidate_offerings (offering_types : List Offering) (max_instances : Nat) :
    List (Nat × Nat) :=
  (List.range offering_types.length).flatMap
    (fun t => (List.range max_instances).map (fun i => (t, i)))

/-- An assignment of solver values to the decision variables of
optimiser.rs (placements, offering_active, unmet_demands), indexed by
demand position and candidate position.  The f64 values returned by the
ILP backend are modelled as rationals. -/
structure ILPSolution where
  placements : Nat → Nat → ℚ
  offering_active : Nat → ℚ
  unmet_demands : Nat → ℚ

/-- All decision variables are declared binary in
create_decision_variables: an integral backend assignment gives each one
the value 0 or 1. -/
def binarySolution (nd nc : Nat) (s : ILPSolution) : Prop :=
  (∀ d < nd, ∀ c < nc, s.placements d c = 0 ∨ s.placements d c = 1) ∧
  (∀ c < nc, s.offering_active c = 0 ∨ s.offering_active c = 1) ∧
  (∀ d < nd, s.unmet_demands d = 0 ∨ s.unmet_demands d = 1)

/-- The constraints added by add_constraints in optimiser.rs:
assignment (each demand placed once or unmet), activation (placement only
on an active candidate), and per-candidate cpu/memory capacity.  GPU and
ephemeral-storage capacity are TODOs in the source and absent here too. -/
def satisfiesConstraints (demands : List PodResources) (offerings : List Offering)
    (cands : List (Nat × Nat)) (s : ILPSolution) : Prop :=
  (∀ d < demands.length,
    (∑ c ∈ Finset.range cands.length, s.placements d c) + s.unmet_demands d = 1) ∧
  (∀ d < demands.length, ∀ c < cands.length,
    s.placements d c ≤ s.offering_active c) ∧
  (∀ c < cands.length,
    (∑ d ∈ Finset.range demands.length,
      s.placements d c * ((demands.getD d default).resources.cpu : ℚ))
        ≤ ((offerings.getD (cands.getD c (0, 0)).1 default).resources.cpu : ℚ) ∧
    (∑ d ∈ Finset.range demands.length,
      s.placements d c * ((demands.getD d default).resources.memory_mib : ℚ))
        ≤ ((offerings.getD (cands.getD c (0, 0)).1 default).resources.memory_mib : ℚ))

/-- Demand indices the solver marked unmet (value above 0.5), in order:
the first loop of extract_solution. -/
def unmetIdxs (s : ILPSolution) (nd : Nat) : List Nat :=
  (List.range nd).filter (fun d => decide ((1 / 2 : ℚ) < s.unmet_demands d))

/-- Demand indices placed on candidate c (value above 0.5), in order:
the pods filter of extract_solution. -/
def placedIdxs (s : ILPSolution) (nd c : Nat) : List Nat :=
  (List.range nd).filter (fun d => decide ((1 / 2 : ℚ) < s.placements d c))

/-- Candidate indices whose activation value is not at most 0.5: the
candidates extract_solution does not skip. -/
def activeCandidates (s : ILPSolution) (nc : Nat) : List Nat :=
  (List.range nc).filter (fun c => decide (¬ s.offering_active c ≤ (1 / 2 : ℚ)))

/-- The PotentialNode extract_solution builds for one active candidate:
the candidate's offering type and the ids of the demands placed on it. -/
def candidateNode (s : ILPSolution) (demands : List PodResources)
    (offerings : List Offering) (cands : List (Nat × Nat)) (c : Nat) : PotentialNode :=
  { offering := offerings.getD (cands.getD c (0, 0)).1 default,
    pods := (placedIdxs s demands.length c).map (fun d => (demands.getD d default).id) }

/-- extract_solution from optimiser.rs: collect unmet demands, build one
node per active candidate, return AllPlaced when no demand is unmet. -/
def extract_solution (s : ILPSolution) (demands : List PodResources)
    (offerings : List Offering) (cands : List (Nat × Nat)) : PlacementSolution :=
  let unmet := (unmetIdxs s demands.length).map (fun d => demands.getD d default)
  let nodes := (activeCandidates s cands.length).map (candidateNode s demands offerings cands)
  if unmet.isEmpty then .AllPlaced nodes else .IncompletePlacement nodes unmet

/-- solve from optimiser.rs.  The two guard branches return before the ILP
backend is consulted; otherwise the backend's outcome (a resolution error
or a variable assignment) is taken as an input and the assignment is
extracted over the candidate list with max_instances = 10.  options only
parameterises the abstracted backend and is unused past the guards. -/
def solve (demands : List PodResources) (offerings : List Offering)
    (_options : SolveOptions) (backend : Except SolveError ILPSolution) :
    Except SolveError PlacementSolution :=
  if demands.isEmpty then .ok .NoDemands
  else if offerings.isEmpty then
    .ok (.IncompletePlacement [] demands)
  else
    match backend with
    | .error e => .error e
    | .ok sol =>
      .ok (extract_solution sol demands offerings (build_candidate_offerings offerings 10))

/-- The nodes carried by a PlacementSolution. -/
def nodesOf : PlacementSolution → List PotentialNode
  | .AllPlaced nodes => nodes
  | .NoDemands => []
  | .IncompletePlacement nodes _ => nodes

/- ── Reconcile engine (controller.rs, node_request.rs) ──────────────── -/

/-- A provisioning action the reconciler decides on (controller.rs). -/
structure NodeRequestDemand where
  pool : String
  target_offering : Offering
  deriving DecidableEq

/-- reconcile_pods from controller.rs: solve over the pre-filtered
catalogue, then one NodeRequestDemand with the literal pool name
"PoolsAreFake" per returned node, for both the AllPlaced and the
IncompletePlacement outcomes; none for NoDemands. -/
def reconcile_pods (state : ClusterState) (backend : Except SolveError ILPSolution) :
    Except SolveError (List NodeRequestDemand) :=
  match solve state.demands state.suitable_offerings SolveOptions.default_ backend with
  | .error e => .error e
  | .ok (.AllPlaced nodes) =>
    .ok (nodes.map (fun node => ⟨"PoolsAreFake", node.offering⟩))
  | .ok .NoDemands => .ok []
  | .ok (.IncompletePlacement nodes _) =>
    .ok (nodes.map (fun node => ⟨"PoolsAreFake", node.offering⟩))

/-- The name create_node_request (node_request.rs) gives the created
resource, as a function of the pool and the freshly drawn uuid. -/
def node_request_name (pool uuid : String) : String :=
  pool ++ "-" ++ uuid

/- ── Fake provider (providers/fake.rs, providers/provider.rs) ───────── -/

/-- NodeId newtype from provider.rs. -/
structure NodeId where
  val : String
  deriving DecidableEq

/-- ProviderError from provider.rs (anyhow cause modelled as a string). -/
inductive ProviderError where
  | CreationFailed (message : String)
  | JoinTimeout (node_id : Option NodeId)
  | OfferingUnavailable (msg : String)
  | MissingConfig (field : String)
  | Internal (msg : String)
  deriving DecidableEq

/-- CreateBehavior from fake.rs; the tokio Duration is modelled as a
millisecond count, unused beyond selecting the branch. -/
inductive CreateBehavior where
  | Succeed
  | SucceedButNodeNeverJoins
  | SucceedAfterDelay (millis : Nat)
  | OfferingUnavailable
  | CreationFailed (msg : String)
  | JoinTimeout
  | InternalError (msg : String)
  deriving DecidableEq

inductive DeleteBehavior where
  | Succeed
  | Noop
  | Fail (msg : String)
  deriving DecidableEq

inductive OfferingsBehavior where
  | Static (offerings : List Offering)
  | Sequence (seq : List (List Offering))
  deriving DecidableEq

/-- Logged record of a create() call (fake.rs). -/
structure CreateCall where
  offering : Offering
  result_node_id : Option NodeId
  deriving DecidableEq

/-- Logged record of a delete() call (fake.rs). -/
structure DeleteCall where
  node_id : NodeId
  deriving DecidableEq

/-- The interior state of FakeProvider.  The Rust value lives behind an
Arc of a Mutex with an atomic id counter; per-pod reconciles are
serialised, so the provider is modelled as a sequential state machine with
the id counter folded into the state. -/
structure FakeProviderState where
  offerings_behavior : OfferingsBehavior
  create_behaviors : List CreateBehavior
  delete_behaviors : List DeleteBehavior
  default_create : CreateBehavior
  default_delete : DeleteBehavior
  create_calls : List CreateCall
  delete_calls : List DeleteCall
  next_id : Nat

/-- Decimal digit to character, for Rust's Display formatting of the id
counter. -/
def decChar : Nat → Char
  | 0 => '0'
  | 1 => '1'
  | 2 => '2'
  | 3 => '3'
  | 4 => '4'
  | 5 => '5'
  | 6 => '6'
  | 7 => '7'
  | 8 => '8'
  | 9 => '9'
  | _ => '!'

/-- Decimal rendering of a natural number (Rust's Display for u64). -/
def natToString (n : Nat) : String :=
  if n = 0 then "0" else ⟨((Nat.digits 10 n).map decChar).reverse⟩

/-- FakeProvider::next_node_id: fetch_add on the counter, then format
"fake-node-" followed by the fetched value. -/
def FakeProvider.next_node_id (st : FakeProviderState) : NodeId × FakeProviderState :=
  (⟨"fake-node-" ++ natToString st.next_id⟩, { st with next_id := st.next_id + 1 })

/-- FakeProvider::create: pop the next queued behaviour (or use the
default), produce the result — drawing a fresh node id on the success
branches — and append the call to the audit log. -/
def FakeProvider.create (st : FakeProviderState) (offering : Offering) :
    Except ProviderError NodeId × FakeProviderState :=
  let popped :=
    match st.create_behaviors with
    | b :: rest => (b, { st with create_behaviors := rest })
    | [] => (st.default_create, st)
  let behavior := popped.1
  let st1 := popped.2
  let step : Except ProviderError NodeId × FakeProviderState :=
    match behavior with
    | .Succeed | .SucceedButNodeNeverJoins =>
      let drawn := FakeProvider.next_node_id st1
      (.ok drawn.1, drawn.2)
    | .SucceedAfterDelay _ =>
      let drawn := FakeProvider.next_node_id st1
      (.ok drawn.1, drawn.2)
    | .OfferingUnavailable =>
      (.error (.OfferingUnavailable (offering.instance_type.val ++ " not available")), st1)
    | .CreationFailed msg => (.error (.CreationFailed msg), st1)
    | .JoinTimeout => (.error (.JoinTimeout none), st1)
    | .InternalError msg => (.error (.Internal msg), st1)
  let st2 := step.2
  let call : CreateCall := { offering, result_node_id := step.1.toOption }
  (step.1, { st2 with create_calls := st2.create_calls ++ [call] })

/-- FakeProvider::new: empty queues, Succeed defaults, id counter at 1. -/
def FakeProvider.new : FakeProviderState :=
  { offerings_behavior := .Static [], create_behaviors := [],
    delete_behaviors := [], default_create := .Succeed,
    default_delete := .Succeed, create_calls := [], delete_calls := [],
    next_id := 1 }

/-- A sequence of create() calls against one provider instance. -/
def runCreates (st : FakeProviderState) :
    List Offering → List (Except ProviderError NodeId) × FakeProviderState
  | [] => ([], st)
  | off :: rest =>
    let step := FakeProvider.create st off
    let tail := runCreates step.2 rest
    (step.1 :: tail.1, tail.2)

/-- The NodeIds of the successful calls, in call order. -/
def successIds (results : List (Except ProviderError NodeId)) : List NodeId :=
  results.filterMap Except.toOption

/- ── Witness inputs and spec-side definitions ─────────────────────── -/

-- Decidable equality of Except outcomes, for evaluating the model on
-- concrete inputs.
deriving instance DecidableEq for Except

/-- An integral backend assignment built from Boolean choices: each binary
decision variable carries 1 when the choice is true and 0 otherwise.  Used
to exhibit concrete solver outcomes. -/
def boolSol (x : Nat → Nat → Bool) (y : Nat → Bool) (u : Nat → Bool) : ILPSolution :=
  { placements := fun d c => if x d c then 1 else 0,
    offering_active := fun c => if y c then 1 else 0,
    unmet_demands := fun d => if u d then 1 else 0 }

/-- Modelled from the spec: "suitable_offerings … does not affect
correctness" — pre-filtering the catalogue and solving yields the same
placement outcome as solving against the full catalogue.  With the ILP
backend abstracted, outcomes are compared across backend assignments: every
binary feasible assignment for the full catalogue is matched by a binary
feasible assignment for the filtered catalogue whose extracted
PlacementSolution is the same. -/
def prefilterPreservesOutcome (state : ClusterState) (options : SolveOptions) : Prop :=
  ∀ sol : ILPSolution,
    binarySolution state.demands.length
      (build_candidate_offerings state.offerings 10).length sol →
    satisfiesConstraints state.demands state.offerings
      (build_candidate_offerings state.offerings 10) sol →
    ∃ sol' : ILPSolution,
      binarySolution state.demands.length
        (build_candidate_offerings state.suitable_offerings 10).length sol' ∧
      satisfiesConstraints state.demands state.suitable_offerings
        (build_candidate_offerings state.suitable_offerings 10) sol' ∧
      solve state.demands state.suitable_offerings options (.ok sol') =
        solve state.demands state.offerings options (.ok sol)

/-- A pod whose single container requests the unparseable cpu quantity
"garbage": concrete input for the C7 witness. -/
def badPod : Pod :=
  { metadata := ⟨some "default", some "bad"⟩,
    spec := some ⟨[⟨some ⟨some [("cpu", "garbage")]⟩⟩]⟩ }

/-- Concrete demand: 2 cpu, 4096 MiB. -/
def wDemand : PodResources := ⟨⟨"default", "pod-a"⟩, ⟨2, 4096, none, 0, none⟩⟩

/-- Concrete offering that exactly fits wDemand. -/
def wOffering : Offering := ⟨⟨"cx22"⟩, ⟨2, 4096, none, 0, none⟩, 1⟩

/-- Backend assignment placing demand 0 on candidate 0, activating only
candidate 0, leaving nothing unmet. -/
def wSol : ILPSolution :=
  boolSol (fun d c => d == 0 && c == 0) (fun c => c == 0) (fun _ => false)

/-- Concrete demand requesting one GPU (cpu/memory fit cpuOffering). -/
def gDemand : PodResources := ⟨⟨"default", "gpu-pod"⟩, ⟨1, 1024, none, 1, none⟩⟩

/-- Concrete offering with no GPU. -/
def cpuOffering : Offering := ⟨⟨"cpu-only"⟩, ⟨1, 1024, none, 0, none⟩, 1⟩

/-- Cluster state pairing the GPU demand with the GPU-less offering. -/
def gState : ClusterState := ⟨[gDemand], [cpuOffering]⟩

/-- Concrete offering too small for wDemand in the cpu dimension. -/
def tinyOffering : Offering := ⟨⟨"tiny"⟩, ⟨1, 512, none, 0, none⟩, 1⟩

/-- Backend assignment leaving every demand unmet and activating nothing. -/
def uSol : ILPSolution :=
  boolSol (fun _ _ => false) (fun _ => false) (fun _ => true)

/-- Backend assignment placing demand 0 on candidate 0 but activating both
candidates 0 and 1, so candidate 1 is active with no pods. -/
def eSol : ILPSolution :=
  boolSol (fun d c => d == 0 && c == 0) (fun c => c == 0 || c == 1) (fun _ => false)

/- ═══ Theorems ═══════════════════════════════════════════════════════ -/

/- ── Helper lemmas on parsing ───────────────────────────────────────── -/

lemma parseDigits_all_digits {cs : List Char} {n : Nat}
    (h : parseDigits cs = some n) : ∀ c ∈ cs, c.isDigit = true := by
  unfold parseDigits at h
  split at h
  · simp at h
  · split at h
    · next hall =>
      intro c hc
      simpa using List.all_eq_true.mp hall c hc
    · simp at h

lemma parseDigits_ne_nil {cs : List Char} {n : Nat}
    (h : parseDigits cs = some n) : cs ≠ [] := by
  intro hnil
  subst hnil
  simp [parseDigits] at h

lemma dropPlus_of_digits {cs : List Char}
    (h : ∀ c ∈ cs, c.isDigit = true) (hne : cs ≠ []) : dropPlus cs = cs := by
  cases cs with
  | nil => exact absurd rfl hne
  | cons a tl =>
    have ha : a.isDigit = true := h a (List.mem_cons_self a tl)
    have hne' : a ≠ '+' := by
      intro h'
      subst h'
      simp [Char.isDigit] at ha
    simp [dropPlus, hne']

lemma parseUInt_of_digits {cs : List Char} {n width : Nat}
    (h : parseDigits cs = some n) (hn : n < 2 ^ width) :
    parseUInt width cs = some n := by
  unfold parseUInt
  rw [dropPlus_of_digits (parseDigits_all_digits h) (parseDigits_ne_nil h), h]
  simp [hn]

lemma not_suffix_of_digits {cs : List Char} {n : Nat}
    (h : parseDigits cs = some n) (suf : List Char) (c : Char) (hc : c ∈ suf)
    (hcd : c.isDigit = false) : ¬ suf <:+ cs := by
  intro hs
  have := parseDigits_all_digits h c (hs.subset hc)
  rw [this] at hcd
  simp at hcd

lemma stripSuffixChars_append (xs suf : List Char) :
    stripSuffixChars (xs ++ suf) suf = some xs := by
  unfold stripSuffixChars
  rw [if_pos (List.suffix_append xs suf)]
  congr 1
  have hlen : (xs ++ suf).length - suf.length = xs.length := by
    simp
  rw [hlen, List.take_left]

lemma stripSuffixChars_eq_none {cs suf : List Char} (h : ¬ suf <:+ cs) :
    stripSuffixChars cs suf = none := if_neg h

lemma not_suffix_append_of_ne (a b xs : List Char)
    (hlen : a.length = b.length) (hne : a ≠ b) : ¬ a <:+ xs ++ b := by
  rintro ⟨t, ht⟩
  exact hne (List.append_inj' ht hlen).2

/- ── C4: Offering::satisfies ────────────────────────────────────────── -/

/-- C4: Offering::satisfies returns true if and only if the offering
dominates the demand in every dimension: cpu, memory_mib and gpu are at
least the demanded amounts, the offered GPU model equals the demanded one
whenever the demand names one, and ephemeral storage is present and at
least the demanded amount whenever the demand names one.  Each direction
of the iff gives the claim's consequences: componentwise-sufficient
resources make satisfies true, and any short dimension makes it false. -/
theorem offering_satisfies_iff (o : Offering) (need : Resources) :
    o.satisfies need = true ↔
      (need.cpu ≤ o.resources.cpu ∧
       need.memory_mib ≤ o.resources.memory_mib ∧
       need.gpu ≤ o.resources.gpu ∧
       (∀ gm, need.gpu_model = some gm → o.resources.gpu_model = some gm) ∧
       (∀ st, need.ephemeral_storage_gib = some st →
          ∃ av, o.resources.ephemeral_storage_gib = some av ∧ st ≤ av)) := by
  unfold Offering.satisfies
  simp only [Bool.and_eq_true, decide_eq_true_eq]
  constructor
  · rintro ⟨⟨⟨⟨h1, h2⟩, h3⟩, h4⟩, h5⟩
    refine ⟨h1, h2, h3, ?_, ?_⟩
    · intro gm hgm
      rw [hgm] at h4
      cases hogm : o.resources.gpu_model with
      | none => rw [hogm] at h4; simp at h4
      | some pgm =>
        rw [hogm] at h4
        have hge : gm = pgm := by simpa using h4
        rw [hge]
    · intro st hst
      rw [hst] at h5
      cases hoes : o.resources.ephemeral_storage_gib with
      | none => rw [hoes] at h5; simp at h5
      | some av =>
        rw [hoes] at h5
        exact ⟨av, rfl, by simpa using h5⟩
  · rintro ⟨h1, h2, h3, h4, h5⟩
    refine ⟨⟨⟨⟨h1, h2⟩, h3⟩, ?_⟩, ?_⟩
    · cases hgm : need.gpu_model with
      | none => simp
      | some gm => rw [h4 gm hgm]; simp
    · cases hes : need.ephemeral_storage_gib with
      | none => simp
      | some st =>
        obtain ⟨av, hav, hle⟩ := h5 st hes
        rw [hav]
        simpa using hle

/- ── C5: resource-quantity parsing ──────────────────────────────────── -/

/-- C5: quantity parsing rounds up on any remainder.  A bare digit string
parses as that many whole cores; an m-suffixed digit string parses as
millicores divided by 1000 rounding up (500m and 1500m round to 1 and 2);
Gi multiplies by 1024, Mi is taken as-is, Ki divides by 1024 rounding up,
and bare bytes divide by 1048576 rounding up; 1000m agrees with 1 and 1Gi
agrees with 1024Mi. -/
theorem parse_quantities_round_up :
    (∀ xs n, parseDigits xs = some n → n < 2 ^ 32 →
      parse_cpu ⟨xs⟩ = .ok n) ∧
    (∀ xs m, parseDigits xs = some m → m < 2 ^ 32 →
      parse_cpu ⟨xs ++ ['m']⟩ = .ok (divCeil m 1000)) ∧
    parse_cpu "500m" = .ok 1 ∧
    parse_cpu "1500m" = .ok 2 ∧
    parse_cpu "1000m" = parse_cpu "1" ∧
    (∀ xs n, parseDigits xs = some n → n < 2 ^ 32 → n * 1024 < 2 ^ 32 →
      parse_memory_mib ⟨xs ++ ['G', 'i']⟩ = .ok (n * 1024)) ∧
    (∀ xs n, parseDigits xs = some n → n < 2 ^ 32 →
      parse_memory_mib ⟨xs ++ ['M', 'i']⟩ = .ok n) ∧
    (∀ xs n, parseDigits xs = some n → n < 2 ^ 32 →
      parse_memory_mib ⟨xs ++ ['K', 'i']⟩ = .ok (divCeil n 1024)) ∧
    (∀ xs n, parseDigits xs = some n → n < 2 ^ 64 →
      divCeil n (1024 * 1024) < 2 ^ 32 →
      parse_memory_mib ⟨xs⟩ = .ok (divCeil n (1024 * 1024))) ∧
    parse_memory_mib "1Gi" = parse_memory_mib "1024Mi" := by
  refine ⟨?_, ?_, by decide, by decide, by decide, ?_, ?_, ?_, ?_, by decide⟩
  · intro xs n h hn
    unfold parse_cpu
    rw [show (⟨xs⟩ : String).data = xs from rfl]
    rw [stripSuffixChars_eq_none (not_suffix_of_digits h ['m'] 'm' (by simp) (by decide))]
    rw [parseUInt_of_digits h hn]
  · intro xs m h hm
    unfold parse_cpu
    simp only [show (⟨xs ++ ['m']⟩ : String).data = xs ++ ['m'] from rfl,
      stripSuffixChars_append, parseUInt_of_digits h hm]
  · intro xs n h hn hprod
    unfold parse_memory_mib
    simp only [show (⟨xs ++ ['G', 'i']⟩ : String).data = xs ++ ['G', 'i'] from rfl,
      stripSuffixChars_append, parseUInt_of_digits h hn]
    rw [Nat.mod_eq_of_lt hprod]
  · intro xs n h hn
    unfold parse_memory_mib
    simp only [show (⟨xs ++ ['M', 'i']⟩ : String).data = xs ++ ['M', 'i'] from rfl,
      stripSuffixChars_eq_none
        (not_suffix_append_of_ne ['G', 'i'] ['M', 'i'] xs rfl (by decide)),
      stripSuffixChars_append, parseUInt_of_digits h hn]
  · intro xs n h hn
    unfold parse_memory_mib
    simp only [show (⟨xs ++ ['K', 'i']⟩ : String).data = xs ++ ['K', 'i'] from rfl,
      stripSuffixChars_eq_none
        (not_suffix_append_of_ne ['G', 'i'] ['K', 'i'] xs rfl (by decide)),
      stripSuffixChars_eq_none
        (not_suffix_append_of_ne ['M', 'i'] ['K', 'i'] xs rfl (by decide)),
      stripSuffixChars_append, parseUInt_of_digits h hn]
  · intro xs n h hn hsmall
    unfold parse_memory_mib
    simp only [show (⟨xs⟩ : String).data = xs from rfl,
      stripSuffixChars_eq_none (not_suffix_of_digits h ['G', 'i'] 'G' (by simp) (by decide)),
      stripSuffixChars_eq_none (not_suffix_of_digits h ['M', 'i'] 'M' (by simp) (by decide)),
      stripSuffixChars_eq_none (not_suffix_of_digits h ['K', 'i'] 'K' (by simp) (by decide)),
      parseUInt_of_digits h hn]
    rw [Nat.mod_eq_of_lt hsmall]

/-- Witness for C5: the general clauses applied at the concrete inputs the
spec quotes (500m, 1024Mi and a bare gibibyte in bytes). -/
theorem parse_quantities_round_up_witness :
    (parseDigits ['5', '0', '0'] = some 500 ∧
      parse_cpu ⟨['5', '0', '0'] ++ ['m']⟩ = .ok (divCeil 500 1000)) ∧
    (parseDigits ['1', '0', '2', '4'] = some 1024 ∧
      parse_memory_mib ⟨['1', '0', '2', '4'] ++ ['M', 'i']⟩ = .ok 1024) ∧
    (parseDigits ['1', '0', '7', '3', '7', '4', '1', '8', '2', '4'] = some 1073741824 ∧
      parse_memory_mib ⟨['1', '0', '7', '3', '7', '4', '1', '8', '2', '4']⟩ =
        .ok (divCeil 1073741824 (1024 * 1024))) :=
  ⟨⟨by decide, parse_quantities_round_up.2.1 _ 500 (by decide) (by decide)⟩,
   ⟨by decide, parse_quantities_round_up.2.2.2.2.2.2.1 _ 1024 (by decide) (by decide)⟩,
   ⟨by decide, parse_quantities_round_up.2.2.2.2.2.2.2.2.1 _ 1073741824 (by decide)
      (by decide) (by decide)⟩⟩

/- ── Helper lemmas on Except binds ──────────────────────────────────── -/

lemma ok_bind {ε α β : Type} (a : α) (f : α → Except ε β) :
    ((Except.ok a : Except ε α) >>= f) = f a := rfl

lemma error_bind {ε α β : Type} (e : ε) (f : α → Except ε β) :
    ((Except.error e : Except ε α) >>= f) = (Except.error e : Except ε β) := rfl

/- ── C10: totality of from_pod on absent data ───────────────────────── -/

lemma addContainer_skip (acc : RAcc) (c : Container)
    (h : c.resources = none ∨ c.resources = some ⟨none⟩) :
    addContainer acc c = .ok acc := by
  rcases h with h | h <;> simp [addContainer, h]

lemma sumContainers_skip (cs : List Container) (acc : RAcc)
    (h : ∀ c ∈ cs, c.resources = none ∨ c.resources = some ⟨none⟩) :
    sumContainers cs acc = .ok acc := by
  induction cs with
  | nil => rfl
  | cons c rest ih =>
    have hc := h c (List.mem_cons_self c rest)
    have hrest := ih (fun c' hc' => h c' (List.mem_cons_of_mem c hc'))
    simp [sumContainers, addContainer_skip acc c hc, hrest, ok_bind]

/-- C10: PodResources::from_pod and Resources::from_pod are total on
absent data.  A pod with no spec, or whose containers all lack a resources
block or a requests map, parses without error to cpu = 0, memory_mib = 0,
gpu = 0 and no ephemeral storage; a missing metadata namespace or name
becomes the empty string in the resulting PodId. -/
theorem from_pod_total_on_absent_data (pod : Pod)
    (h : pod.spec = none ∨
      ∀ c ∈ (pod.spec.map PodSpec.containers).getD [],
        c.resources = none ∨ c.resources = some ⟨none⟩) :
    PodResources.from_pod pod =
      .ok ⟨⟨pod.metadata.namespace_.getD "", pod.metadata.name.getD ""⟩,
        ⟨0, 0, none, 0, none⟩⟩ := by
  have hall : ∀ c ∈ (pod.spec.map PodSpec.containers).getD [],
      c.resources = none ∨ c.resources = some ⟨none⟩ := by
    rcases h with h | h
    · rw [h]
      intro c hc
      simp at hc
    · exact h
  unfold PodResources.from_pod Resources.from_pod
  simp only [sumContainers_skip ((pod.spec.map PodSpec.containers).getD [])
      ⟨0, 0, 0, none⟩ hall, ok_bind]

/-- Witness for C10: a pod with no metadata and no spec parses to the
all-zero demand keyed by the empty namespace and name. -/
theorem from_pod_total_on_absent_data_witness :
    (({ metadata := ⟨none, none⟩, spec := none } : Pod).spec = none ∨
      ∀ c ∈ ((({ metadata := ⟨none, none⟩, spec := none } : Pod)).spec.map
          PodSpec.containers).getD [],
        c.resources = none ∨ c.resources = some ⟨none⟩) ∧
    PodResources.from_pod { metadata := ⟨none, none⟩, spec := none } =
      .ok ⟨⟨"", ""⟩, ⟨0, 0, none, 0, none⟩⟩ :=
  ⟨Or.inl rfl,
    from_pod_total_on_absent_data { metadata := ⟨none, none⟩, spec := none }
      (Or.inl rfl)⟩

/- ── C7: gather_cluster_state parse-error policy ────────────────────── -/

lemma collectPodResources_error {pods : List Pod} (p : Pod) (hp : p ∈ pods)
    {e : QuantityParseError} (he : PodResources.from_pod p = .error e) :
    ∃ e', collectPodResources pods = .error e' := by
  induction pods with
  | nil => cases hp
  | cons q rest ih =>
    rcases List.mem_cons.mp hp with h | h
    · subst h
      exact ⟨e, by simp [collectPodResources, he, error_bind]⟩
    · cases hfirst : PodResources.from_pod q with
      | error e' => exact ⟨e', by simp [collectPodResources, hfirst, error_bind]⟩
      | ok r =>
        obtain ⟨e', he'⟩ := ih h
        exact ⟨e', by simp [collectPodResources, hfirst, he', ok_bind, error_bind]⟩

lemma collectPodResources_ok {pods : List Pod}
    (h : ∀ p ∈ pods, ∃ r, PodResources.from_pod p = .ok r) :
    ∃ ds, collectPodResources pods = .ok ds ∧ ds.length = pods.length ∧
      ∀ i, i < pods.length →
        PodResources.from_pod (pods.getD i default) = .ok (ds.getD i default) := by
  induction pods with
  | nil =>
    refine ⟨[], rfl, rfl, ?_⟩
    intro i hi
    exact absurd hi (by simp)
  | cons q rest ih =>
    obtain ⟨r, hr⟩ := h q (List.mem_cons_self q rest)
    obtain ⟨ds, hds, hlen, hidx⟩ := ih (fun p hp => h p (List.mem_cons_of_mem q hp))
    refine ⟨r :: ds, by simp [collectPodResources, hr, hds, ok_bind], by simp [hlen], ?_⟩
    intro i hi
    cases i with
    | zero => simpa using hr
    | succ j => simpa using hidx j (by simpa using hi)

/-- C7: gather_cluster_state aborts whenever any listed unschedulable pod
carries an unparseable resource quantity — a single QuantityParseError
fails the whole gather — and succeeds exactly when every pod parses,
returning one PodResources per pod, in order, together with the provider's
current offerings catalogue. -/
theorem gather_cluster_state_parse_policy (pods : List Pod) (offerings : List Offering) :
    ((∃ p ∈ pods, ∃ e, PodResources.from_pod p = .error e) →
      ∃ e, gather_cluster_state pods offerings = .error e) ∧
    ((∀ p ∈ pods, ∃ r, PodResources.from_pod p = .ok r) →
      ∃ demands, gather_cluster_state pods offerings = .ok ⟨demands, offerings⟩ ∧
        demands.length = pods.length ∧
        ∀ i, i < pods.length →
          PodResources.from_pod (pods.getD i default) = .ok (demands.getD i default)) := by
  constructor
  · rintro ⟨p, hp, e, he⟩
    obtain ⟨e', he'⟩ := collectPodResources_error p hp he
    exact ⟨e', by simp [gather_cluster_state, he', error_bind]⟩
  · intro h
    obtain ⟨ds, hds, hlen, hidx⟩ := collectPodResources_ok h
    exact ⟨ds, by simp [gather_cluster_state, hds, ok_bind], hlen, hidx⟩

/-- Witness for C7: one unparseable pod aborts the whole gather. -/
theorem gather_cluster_state_parse_policy_witness :
    PodResources.from_pod badPod = .error ⟨"garbage"⟩ ∧
    (∃ e, gather_cluster_state [badPod] [] = .error e) :=
  ⟨by decide,
    (gather_cluster_state_parse_policy [badPod] []).1
      ⟨badPod, by simp, ⟨"garbage"⟩, by decide⟩⟩

/- ── Helper lemmas for the optimiser theorems ───────────────────────── -/

lemma map_getD_range {α : Type} [Inhabited α] (l : List α) :
    (List.range l.length).map (fun i => l.getD i default) = l := by
  induction l with
  | nil => rfl
  | cons a tl ih =>
    rw [List.length_cons, List.range_succ_eq_map]
    simp only [List.map_cons, List.map_map]
    refine congrArg₂ List.cons rfl ?_
    calc (List.range tl.length).map
          ((fun i => (a :: tl).getD i default) ∘ Nat.succ)
        = (List.range tl.length).map (fun i => tl.getD i default) := by
          refine List.map_congr_left ?_
          intro i _
          rfl
      _ = tl := ih

lemma filter_range_map_getD_sublist {α : Type} [Inhabited α] (l : List α)
    (p : Nat → Bool) :
    (((List.range l.length).filter p).map (fun i => l.getD i default)).Sublist l := by
  have h1 : List.Sublist ((List.range l.length).filter p) (List.range l.length) :=
    List.filter_sublist _
  have h := h1.map (fun i => l.getD i default)
  rwa [map_getD_range] at h

lemma list_filter_map_sum (p : Nat → Bool) (g : Nat → ℚ) (n : Nat) :
    (((List.range n).filter p).map g).sum
      = ∑ d ∈ Finset.range n, if p d then g d else 0 := by
  induction n with
  | zero => rfl
  | succ m ih =>
    rw [List.range_succ, List.filter_append, List.map_append, List.sum_append,
      Finset.sum_range_succ, ih]
    cases hp : p m
    all_goals simp [hp]

lemma exists_unique_one_of_binary_sum {f : Nat → ℚ} {n : Nat}
    (hb : ∀ c < n, f c = 0 ∨ f c = 1)
    (hs : ∑ c ∈ Finset.range n, f c = 1) :
    ∃ c, c < n ∧ f c = 1 ∧ ∀ c', c' < n → c' ≠ c → f c' = 0 := by
  have hnonneg : ∀ c ∈ Finset.range n, 0 ≤ f c := by
    intro c hc
    rcases hb c (Finset.mem_range.mp hc) with h | h
    · rw [h]
    · rw [h]
      norm_num
  have hex : ∃ c, c < n ∧ f c = 1 := by
    by_contra hno
    push_neg at hno
    have hzero : ∀ c ∈ Finset.range n, f c = 0 := by
      intro c hc
      rcases hb c (Finset.mem_range.mp hc) with h | h
      · exact h
      · exact absurd h (hno c (Finset.mem_range.mp hc))
    rw [Finset.sum_eq_zero hzero] at hs
    norm_num at hs
  obtain ⟨c, hc, hc1⟩ := hex
  refine ⟨c, hc, hc1, ?_⟩
  intro c' hc' hne
  rcases hb c' hc' with h | h
  · exact h
  · exfalso
    have hsub : ({c, c'} : Finset ℕ) ⊆ Finset.range n := by
      intro x hx
      rcases Finset.mem_insert.mp hx with h' | h'
      · exact Finset.mem_range.mpr (h' ▸ hc)
      · exact Finset.mem_range.mpr ((Finset.mem_singleton.mp h') ▸ hc')
    have hpair : ∑ x ∈ ({c, c'} : Finset ℕ), f x = 2 := by
      rw [Finset.sum_pair (Ne.symm hne), hc1, h]
      norm_num
    have hle : ∑ x ∈ ({c, c'} : Finset ℕ), f x ≤ ∑ x ∈ Finset.range n, f x :=
      Finset.sum_le_sum_of_subset_of_nonneg hsub
        (fun x hx _ => hnonneg x hx)
    rw [hpair, hs] at hle
    norm_num at hle

lemma countP_eq_one_of_unique {l : List ℕ} {a : ℕ} (hnd : l.Nodup) (ha : a ∈ l)
    (q : ℕ → Bool) (hq : ∀ x ∈ l, q x = true ↔ x = a) : l.countP q = 1 := by
  have hcong : l.countP q = l.countP (fun x => x == a) := by
    apply List.countP_congr
    intro x hx
    rcases hb : q x with _ | _
    · have : ¬ x = a := fun h => by
        rw [(hq x hx).mpr h] at hb
        cases hb
      simp [this]
    · have := (hq x hx).mp hb
      simp [this]
  rw [hcong]
  have : l.countP (fun x => x == a) = l.count a := rfl
  rw [this]
  exact List.count_eq_one_of_mem hnd ha

lemma getD_id_inj_of_nodup {l : List PodResources}
    (hnd : (l.map PodResources.id).Nodup) {i j : Nat}
    (hi : i < l.length) (hj : j < l.length)
    (hij : (l.getD i default).id = (l.getD j default).id) : i = j := by
  have hinj := List.nodup_iff_injective_getElem.mp hnd
  have hi' : i < (l.map PodResources.id).length := by simpa using hi
  have hj' : j < (l.map PodResources.id).length := by simpa using hj
  have heq : (l.map PodResources.id)[i] = (l.map PodResources.id)[j] := by
    rw [List.getElem_map, List.getElem_map]
    rw [List.getD_eq_getElem l default hi, List.getD_eq_getElem l default hj] at hij
    exact hij
  have h2 := @hinj ⟨i, hi'⟩ ⟨j, hj'⟩ heq
  exact congrArg Fin.val h2

/- ── C1: AllPlaced solutions respect capacity and place each demand
once ─ -/

/-- C1: whenever solve returns AllPlaced(N) for a backend assignment that
is binary and satisfies the constraints the code handed to the ILP
backend, every node of N respects capacity — the placed demands' summed
cpu and memory_mib stay within the node's offering — and every demand
(demands' pod ids being distinct, as ids of distinct pods are) appears in
the pods list of exactly one node of N. -/
theorem solve_allPlaced_capacity_and_unique (demands : List PodResources)
    (offerings : List Offering) (options : SolveOptions) (sol : ILPSolution)
    (N : List PotentialNode)
    (hbin : binarySolution demands.length
      (build_candidate_offerings offerings 10).length sol)
    (hcon : satisfiesConstraints demands offerings
      (build_candidate_offerings offerings 10) sol)
    (hids : (demands.map PodResources.id).Nodup)
    (hsolve : solve demands offerings options (.ok sol) = .ok (.AllPlaced N)) :
    (∀ node ∈ N, ∃ placed : List PodResources, placed.Sublist demands ∧
      node.pods = placed.map PodResources.id ∧
      (placed.map (fun p => p.resources.cpu)).sum ≤ node.offering.resources.cpu ∧
      (placed.map (fun p => p.resources.memory_mib)).sum
        ≤ node.offering.resources.memory_mib) ∧
    (∀ d ∈ demands, N.countP (fun node => decide (d.id ∈ node.pods)) = 1) := by
  set cands := build_candidate_offerings offerings 10 with hcands
  -- Unpack solve: the guards cannot have fired, so extraction produced N.
  unfold solve at hsolve
  by_cases hd : demands.isEmpty
  · rw [if_pos hd] at hsolve
    simp at hsolve
  rw [if_neg hd] at hsolve
  by_cases ho : offerings.isEmpty
  · rw [if_pos ho] at hsolve
    simp at hsolve
  rw [if_neg ho] at hsolve
  have hex : extract_solution sol demands offerings cands = .AllPlaced N := by
    simpa using hsolve
  simp only [extract_solution] at hex
  -- The returned variant decides emptiness of the unmet list.
  by_cases hu : ((unmetIdxs sol demands.length).map
      (fun d => demands.getD d default)).isEmpty
  swap
  · rw [if_neg hu] at hex
    simp at hex
  rw [if_pos hu] at hex
  simp only [PlacementSolution.AllPlaced.injEq] at hex
  -- No demand is unmet: every unmet variable is 0.
  have hunmet : ∀ d, d < demands.length → sol.unmet_demands d = 0 := by
    intro d hdlt
    have hnil : unmetIdxs sol demands.length = [] := by
      have := List.isEmpty_iff.mp hu
      exact List.map_eq_nil_iff.mp this
    have hnot : ¬ ((1 / 2 : ℚ) < sol.unmet_demands d) := by
      have hmem := List.filter_eq_nil_iff.mp hnil d (List.mem_range.mpr hdlt)
      simpa using hmem
    rcases hbin.2.2 d hdlt with h | h
    · exact h
    · rw [h] at hnot
      norm_num at hnot
  constructor
  · -- Capacity, node by node.
    intro node hnode
    rw [← hex] at hnode
    obtain ⟨c, hcmem, hcnode⟩ := List.mem_map.mp hnode
    have hclt : c < cands.length :=
      List.mem_range.mp (List.mem_filter.mp hcmem).1
    refine ⟨(placedIdxs sol demands.length c).map
      (fun d => demands.getD d default), ?_, ?_, ?_, ?_⟩
    · exact filter_range_map_getD_sublist demands _
    · rw [← hcnode]
      simp [candidateNode, List.map_map]
    · -- cpu capacity
      have hcap := (hcon.2.2 c hclt).1
      have hsum : ∑ d ∈ Finset.range demands.length,
          sol.placements d c * ((demands.getD d default).resources.cpu : ℚ)
          = ∑ d ∈ Finset.range demands.length,
            if decide ((1 / 2 : ℚ) < sol.placements d c) then
              ((demands.getD d default).resources.cpu : ℚ) else 0 := by
        refine Finset.sum_congr rfl ?_
        intro d hdmem
        rcases hbin.1 d (Finset.mem_range.mp hdmem) c hclt with h | h
        · rw [h]
          norm_num
        · rw [h]
          norm_num
      have hlist := list_filter_map_sum
        (fun d => decide ((1 / 2 : ℚ) < sol.placements d c))
        (fun d => ((demands.getD d default).resources.cpu : ℚ)) demands.length
      rw [← hlist] at hsum
      rw [hsum] at hcap
      have hcast : (Nat.cast ((((placedIdxs sol demands.length c).map
          (fun d => demands.getD d default)).map
            (fun p => p.resources.cpu)).sum) : ℚ)
          = (((List.range demands.length).filter
              (fun d => decide ((1 / 2 : ℚ) < sol.placements d c))).map
              (fun d => ((demands.getD d default).resources.cpu : ℚ))).sum := by
        rw [Nat.cast_list_sum, List.map_map, List.map_map]
        rfl
      rw [← hcast] at hcap
      have hoff : node.offering = offerings.getD (cands.getD c (0, 0)).1 default := by
        rw [← hcnode]
        rfl
      rw [hoff]
      exact_mod_cast hcap
    · -- memory capacity, same argument
      have hcap := (hcon.2.2 c hclt).2
      have hsum : ∑ d ∈ Finset.range demands.length,
          sol.placements d c * ((demands.getD d default).resources.memory_mib : ℚ)
          = ∑ d ∈ Finset.range demands.length,
            if decide ((1 / 2 : ℚ) < sol.placements d c) then
              ((demands.getD d default).resources.memory_mib : ℚ) else 0 := by
        refine Finset.sum_congr rfl ?_
        intro d hdmem
        rcases hbin.1 d (Finset.mem_range.mp hdmem) c hclt with h | h
        · rw [h]
          norm_num
        · rw [h]
          norm_num
      have hlist := list_filter_map_sum
        (fun d => decide ((1 / 2 : ℚ) < sol.placements d c))
        (fun d => ((demands.getD d default).resources.memory_mib : ℚ)) demands.length
      rw [← hlist] at hsum
      rw [hsum] at hcap
      have hcast : (Nat.cast ((((placedIdxs sol demands.length c).map
          (fun d => demands.getD d default)).map
            (fun p => p.resources.memory_mib)).sum) : ℚ)
          = (((List.range demands.length).filter
              (fun d => decide ((1 / 2 : ℚ) < sol.placements d c))).map
              (fun d => ((demands.getD d default).resources.memory_mib : ℚ))).sum := by
        rw [Nat.cast_list_sum, List.map_map, List.map_map]
        rfl
      rw [← hcast] at hcap
      have hoff : node.offering = offerings.getD (cands.getD c (0, 0)).1 default := by
        rw [← hcnode]
        rfl
      rw [hoff]
      exact_mod_cast hcap
  · -- Each demand lands on exactly one returned node.
    intro d hdmem
    obtain ⟨di, hdi, hdeq⟩ := List.mem_iff_getElem.mp hdmem
    have hgetd : demands.getD di default = d := by
      rw [List.getD_eq_getElem demands default hdi, hdeq]
    have hassign := hcon.1 di hdi
    rw [hunmet di hdi, add_zero] at hassign
    obtain ⟨cstar, hcs_lt, hcs_one, hcs_unique⟩ :=
      exists_unique_one_of_binary_sum (fun c hc => hbin.1 di hdi c hc) hassign
    have hy : sol.offering_active cstar = 1 := by
      rcases hbin.2.1 cstar hcs_lt with h | h
      · exfalso
        have hact := hcon.2.1 di hdi cstar hcs_lt
        rw [hcs_one, h] at hact
        norm_num at hact
      · exact h
    have hcs_mem : cstar ∈ activeCandidates sol cands.length := by
      apply List.mem_filter.mpr
      refine ⟨List.mem_range.mpr hcs_lt, ?_⟩
      rw [hy]
      norm_num
    rw [← hex, List.countP_map]
    apply countP_eq_one_of_unique
      (List.Nodup.filter _ (List.nodup_range _)) hcs_mem
    intro c hcmem
    have hclt : c < cands.length :=
      List.mem_range.mp (List.mem_filter.mp hcmem).1
    constructor
    · intro htrue
      by_contra hne
      have hmem' : d.id ∈ (candidateNode sol demands offerings cands c).pods := by
        simpa using htrue
      rw [candidateNode] at hmem'
      obtain ⟨dj, hdjmem, hdjid⟩ := List.mem_map.mp hmem'
      have hdjlt : dj < demands.length :=
        List.mem_range.mp (List.mem_filter.mp hdjmem).1
      have hdjplaced : (1 / 2 : ℚ) < sol.placements dj c := by
        have := (List.mem_filter.mp hdjmem).2
        simpa using this
      have hdjdi : dj = di := by
        apply getD_id_inj_of_nodup hids hdjlt hdi
        rw [hdjid, ← hgetd]
      rw [hdjdi] at hdjplaced
      rw [hcs_unique c hclt hne] at hdjplaced
      norm_num at hdjplaced
    · intro hceq
      have hmem2 : d.id ∈ (placedIdxs sol demands.length c).map
          (fun i => (demands.getD i default).id) := by
        apply List.mem_map.mpr
        refine ⟨di, ?_, by rw [hgetd]⟩
        apply List.mem_filter.mpr
        refine ⟨List.mem_range.mpr hdi, ?_⟩
        rw [hceq, hcs_one]
        simp only [decide_eq_true_eq]
        norm_num
      simpa [candidateNode] using hmem2

/- ── Evaluation lemmas for Boolean-choice assignments ───────────────── -/

lemma ite_one_zero_gt_half (b : Bool) :
    (decide ((1 / 2 : ℚ) < if b = true then 1 else 0)) = b := by
  cases b
  · apply decide_eq_false
    norm_num
  · apply decide_eq_true
    norm_num

lemma ite_one_zero_not_le_half (b : Bool) :
    (decide (¬ (if b = true then (1 : ℚ) else 0) ≤ 1 / 2)) = b := by
  cases b
  · apply decide_eq_false
    norm_num
  · apply decide_eq_true
    norm_num

lemma placedIdxs_boolSol (x : Nat → Nat → Bool) (y u : Nat → Bool) (nd c : Nat) :
    placedIdxs (boolSol x y u) nd c = (List.range nd).filter (fun d => x d c) := by
  refine List.filter_congr ?_
  intro d _
  exact ite_one_zero_gt_half (x d c)

lemma unmetIdxs_boolSol (x : Nat → Nat → Bool) (y u : Nat → Bool) (nd : Nat) :
    unmetIdxs (boolSol x y u) nd = (List.range nd).filter u := by
  refine List.filter_congr ?_
  intro d _
  exact ite_one_zero_gt_half (u d)

lemma activeCandidates_boolSol (x : Nat → Nat → Bool) (y u : Nat → Bool) (nc : Nat) :
    activeCandidates (boolSol x y u) nc = (List.range nc).filter y := by
  refine List.filter_congr ?_
  intro c _
  exact ite_one_zero_not_le_half (y c)

lemma binarySolution_boolSol (nd nc : Nat) (x : Nat → Nat → Bool) (y u : Nat → Bool) :
    binarySolution nd nc (boolSol x y u) := by
  refine ⟨?_, ?_, ?_⟩
  · intro d _ c _
    cases h : x d c
    all_goals simp [boolSol, h]
  · intro c _
    cases h : y c
    all_goals simp [boolSol, h]
  · intro d _
    cases h : u d
    all_goals simp [boolSol, h]

/-- Extraction outcome for one demand, one offering, and the assignment
placing demand 0 on candidate 0 only. -/
lemma extract_single (dm : PodResources) (off : Offering) :
    extract_solution
      (boolSol (fun d c => d == 0 && c == 0) (fun c => c == 0) (fun _ => false))
      [dm] [off] (build_candidate_offerings [off] 10) =
      .AllPlaced [⟨off, [dm.id]⟩] := by
  rw [extract_solution]
  rw [show ([dm] : List PodResources).length = 1 from rfl]
  rw [show (build_candidate_offerings [off] 10).length = 10 from rfl]
  rw [unmetIdxs_boolSol, activeCandidates_boolSol]
  rw [show ((List.range 1).filter (fun _ => false)) = [] from rfl]
  rw [show ((List.range 10).filter (fun c => c == 0)) = [0] from rfl]
  simp only [List.map_nil, List.map_cons, List.isEmpty_nil, if_true]
  rw [candidateNode, placedIdxs_boolSol]
  rfl

/-- The single-placement assignment is feasible for one demand and one
offering whose cpu and memory dominate it. -/
lemma constraints_single (dm : PodResources) (off : Offering)
    (hcpu : dm.resources.cpu ≤ off.resources.cpu)
    (hmem : dm.resources.memory_mib ≤ off.resources.memory_mib) :
    satisfiesConstraints [dm] [off] (build_candidate_offerings [off] 10)
      (boolSol (fun d c => d == 0 && c == 0) (fun c => c == 0) (fun _ => false)) := by
  refine ⟨?_, ?_, ?_⟩
  · intro d hd
    rw [show ([dm] : List PodResources).length = 1 from rfl] at hd
    have hd0 : d = 0 := by omega
    subst hd0
    rw [show (build_candidate_offerings [off] 10).length = 10 from rfl]
    rw [Finset.sum_range_succ, Finset.sum_range_succ, Finset.sum_range_succ,
      Finset.sum_range_succ, Finset.sum_range_succ, Finset.sum_range_succ,
      Finset.sum_range_succ, Finset.sum_range_succ, Finset.sum_range_succ,
      Finset.sum_range_succ, Finset.sum_range_zero]
    norm_num [boolSol]
  · intro d hd c hc
    rw [show ([dm] : List PodResources).length = 1 from rfl] at hd
    have hd0 : d = 0 := by omega
    subst hd0
    cases hxc : (0 == 0 && c == 0)
    all_goals simp [boolSol, hxc]
  · intro c hc
    rw [show (build_candidate_offerings [off] 10).length = 10 from rfl] at hc
    rw [show ([dm] : List PodResources).length = 1 from rfl]
    rw [show build_candidate_offerings [off] 10 =
      [(0, 0), (0, 1), (0, 2), (0, 3), (0, 4), (0, 5), (0, 6), (0, 7), (0, 8),
        (0, 9)] from rfl]
    rw [Finset.sum_range_succ, Finset.sum_range_zero,
      Finset.sum_range_succ, Finset.sum_range_zero]
    interval_cases c
    all_goals simp [boolSol, List.getD, List.getElem?_cons_zero,
      List.getElem?_cons_succ, Option.getD_some]
    all_goals constructor
    all_goals exact_mod_cast Nat.cast_le.mpr (by assumption)

/-- The everything-unmet assignment is feasible for one demand and one
offering, whatever their resources. -/
lemma constraints_single_unmet (dm : PodResources) (off : Offering) :
    satisfiesConstraints [dm] [off] (build_candidate_offerings [off] 10) uSol := by
  refine ⟨?_, ?_, ?_⟩
  · intro d hd
    rw [show ([dm] : List PodResources).length = 1 from rfl] at hd
    have hd0 : d = 0 := by omega
    subst hd0
    rw [show (build_candidate_offerings [off] 10).length = 10 from rfl]
    rw [Finset.sum_range_succ, Finset.sum_range_succ, Finset.sum_range_succ,
      Finset.sum_range_succ, Finset.sum_range_succ, Finset.sum_range_succ,
      Finset.sum_range_succ, Finset.sum_range_succ, Finset.sum_range_succ,
      Finset.sum_range_succ, Finset.sum_range_zero]
    norm_num [uSol, boolSol]
  · intro d hd c hc
    simp [uSol, boolSol]
  · intro c hc
    rw [show ([dm] : List PodResources).length = 1 from rfl]
    rw [Finset.sum_range_succ, Finset.sum_range_zero,
      Finset.sum_range_succ, Finset.sum_range_zero]
    refine ⟨?_, ?_⟩
    all_goals simp [uSol, boolSol]

/-- Witness for C1: a single demand fitting a single offering, with the
backend assignment that places it on the first candidate; the conclusion
is the capacity bound and unique placement at that concrete input. -/
theorem solve_allPlaced_capacity_and_unique_witness :
    binarySolution [wDemand].length
      (build_candidate_offerings [wOffering] 10).length wSol ∧
    satisfiesConstraints [wDemand] [wOffering]
      (build_candidate_offerings [wOffering] 10) wSol ∧
    ([wDemand].map PodResources.id).Nodup ∧
    solve [wDemand] [wOffering] SolveOptions.default_ (.ok wSol) =
      .ok (.AllPlaced [⟨wOffering, [wDemand.id]⟩]) ∧
    ((∀ node ∈ [(⟨wOffering, [wDemand.id]⟩ : PotentialNode)],
      ∃ placed : List PodResources, placed.Sublist [wDemand] ∧
        node.pods = placed.map PodResources.id ∧
        (placed.map (fun p => p.resources.cpu)).sum ≤ node.offering.resources.cpu ∧
        (placed.map (fun p => p.resources.memory_mib)).sum
          ≤ node.offering.resources.memory_mib) ∧
    (∀ d ∈ [wDemand],
      ([(⟨wOffering, [wDemand.id]⟩ : PotentialNode)].countP
        (fun node => decide (d.id ∈ node.pods))) = 1)) := by
  have hbin : binarySolution [wDemand].length
      (build_candidate_offerings [wOffering] 10).length wSol :=
    binarySolution_boolSol _ _ _ _ _
  have hcon : satisfiesConstraints [wDemand] [wOffering]
      (build_candidate_offerings [wOffering] 10) wSol :=
    constraints_single wDemand wOffering (by norm_num [wDemand, wOffering])
      (by norm_num [wDemand, wOffering])
  have hids : ([wDemand].map PodResources.id).Nodup := by simp
  have hsolve : solve [wDemand] [wOffering] SolveOptions.default_ (.ok wSol) =
      .ok (.AllPlaced [⟨wOffering, [wDemand.id]⟩]) := by
    rw [solve, if_neg (by simp), if_neg (by simp)]
    rw [show wSol = boolSol (fun d c => d == 0 && c == 0) (fun c => c == 0)
      (fun _ => false) from rfl]
    rw [extract_single]
  exact ⟨hbin, hcon, hids, hsolve,
    solve_allPlaced_capacity_and_unique [wDemand] [wOffering]
      SolveOptions.default_ wSol [⟨wOffering, [wDemand.id]⟩]
      hbin hcon hids hsolve⟩

/- ── C3: solve guard branches ───────────────────────────────────────── -/

/-- C3: with no demands, solve returns NoDemands; with demands but no
offerings, it returns IncompletePlacement with no nodes and unmet equal to
the demands.  Both equalities hold for every backend outcome — including a
backend error — so the ILP backend is never consulted on these paths. -/
theorem solve_edge_cases (offerings : List Offering) (demands : List PodResources)
    (options : SolveOptions) (backend : Except SolveError ILPSolution) :
    solve [] offerings options backend = .ok .NoDemands ∧
    (demands ≠ [] →
      solve demands [] options backend = .ok (.IncompletePlacement [] demands)) := by
  constructor
  · rw [solve.eq_def]
    simp
  · intro h
    rw [solve.eq_def, if_neg (by simpa using h)]
    simp

/-- Witness for C3: a non-empty demand list against no offerings, with the
backend outcome an error — the result is still the IncompletePlacement the
claim names. -/
theorem solve_edge_cases_witness :
    ([wDemand] ≠ ([] : List PodResources)) ∧
    solve [wDemand] [] SolveOptions.default_ (.error .Resolution) =
      .ok (.IncompletePlacement [] [wDemand]) :=
  ⟨by simp,
    (solve_edge_cases [] [wDemand] SolveOptions.default_ (.error .Resolution)).2
      (by simp)⟩

/- ── C9: active candidates with no placements become empty nodes ────── -/

/-- C9: extract_solution builds one PotentialNode for every candidate
whose activation value exceeds 0.5, even when no placement variable
assigns any demand to it, so the PlacementSolution solve returns can
contain nodes whose pods list is empty. -/
theorem solve_keeps_empty_active_nodes (demands : List PodResources)
    (offerings : List Offering) (options : SolveOptions) (sol : ILPSolution)
    (c : Nat) (hd : demands ≠ []) (ho : offerings ≠ [])
    (hc : c < (build_candidate_offerings offerings 10).length)
    (hy : ¬ sol.offering_active c ≤ (1 / 2 : ℚ))
    (hx : ∀ d, d < demands.length → sol.placements d c ≤ (1 / 2 : ℚ)) :
    ∃ ps, solve demands offerings options (.ok sol) = .ok ps ∧
      (⟨offerings.getD ((build_candidate_offerings offerings 10).getD c (0, 0)).1
        default, []⟩ : PotentialNode) ∈ nodesOf ps := by
  refine ⟨extract_solution sol demands offerings
    (build_candidate_offerings offerings 10), ?_, ?_⟩
  · rw [solve, if_neg (by simpa using hd), if_neg (by simpa using ho)]
  · have hpods : placedIdxs sol demands.length c = [] := by
      apply List.filter_eq_nil_iff.mpr
      intro d hdmem
      have hle := hx d (List.mem_range.mp hdmem)
      simpa using not_lt.mpr hle
    have hnode : candidateNode sol demands offerings
        (build_candidate_offerings offerings 10) c =
        (⟨offerings.getD ((build_candidate_offerings offerings 10).getD c (0, 0)).1
          default, []⟩ : PotentialNode) := by
      rw [candidateNode, hpods]
      rfl
    have hcmem : c ∈ activeCandidates sol
        (build_candidate_offerings offerings 10).length := by
      apply List.mem_filter.mpr
      exact ⟨List.mem_range.mpr hc, decide_eq_true hy⟩
    have hnodes : nodesOf (extract_solution sol demands offerings
        (build_candidate_offerings offerings 10)) =
        (activeCandidates sol (build_candidate_offerings offerings 10).length).map
          (candidateNode sol demands offerings
            (build_candidate_offerings offerings 10)) := by
      simp only [extract_solution]
      split
      · rfl
      · rfl
    rw [hnodes]
    exact List.mem_map.mpr ⟨c, hcmem, hnode⟩

/-- Witness for C9: one demand, one offering, and an assignment that
activates candidates 0 and 1 while placing the demand only on candidate 0;
the returned solution contains an empty node for candidate 1. -/
theorem solve_keeps_empty_active_nodes_witness :
    (([wDemand] : List PodResources) ≠ [] ∧ ([wOffering] : List Offering) ≠ [] ∧
      1 < (build_candidate_offerings [wOffering] 10).length ∧
      ¬ eSol.offering_active 1 ≤ (1 / 2 : ℚ) ∧
      (∀ d, d < ([wDemand] : List PodResources).length →
        eSol.placements d 1 ≤ (1 / 2 : ℚ))) ∧
    (∃ ps, solve [wDemand] [wOffering] SolveOptions.default_ (.ok eSol) = .ok ps ∧
      (⟨[wOffering].getD ((build_candidate_offerings [wOffering] 10).getD 1 (0, 0)).1
        default, []⟩ : PotentialNode) ∈ nodesOf ps) := by
  have h1 : ([wDemand] : List PodResources) ≠ [] := by simp
  have h2 : ([wOffering] : List Offering) ≠ [] := by simp
  have h3 : 1 < (build_candidate_offerings [wOffering] 10).length := by
    rw [show (build_candidate_offerings [wOffering] 10).length = 10 from rfl]
    omega
  have h4 : ¬ eSol.offering_active 1 ≤ (1 / 2 : ℚ) := by
    rw [show eSol.offering_active 1 = 1 from rfl]
    norm_num
  have h5 : ∀ d, d < ([wDemand] : List PodResources).length →
      eSol.placements d 1 ≤ (1 / 2 : ℚ) := by
    intro d hd
    rw [show ([wDemand] : List PodResources).length = 1 from rfl] at hd
    have hd0 : d = 0 := by omega
    subst hd0
    rw [show eSol.placements 0 1 = 0 from rfl]
    norm_num
  exact ⟨⟨h1, h2, h3, h4, h5⟩,
    solve_keeps_empty_active_nodes [wDemand] [wOffering] SolveOptions.default_
      eSol 1 h1 h2 h3 h4 h5⟩

/- ── C6: reconcile_pods provisioning actions ────────────────────────── -/

/-- C6: reconcile_pods returns exactly one NodeRequestDemand per
PotentialNode of the solver's solution — each with the literal pool name
"PoolsAreFake" and that node's offering — for AllPlaced and for
IncompletePlacement alike, and none for NoDemands; create_node_request
names the created resource by joining the pool and uuid with a hyphen. -/
theorem reconcile_pods_one_demand_per_node (state : ClusterState)
    (backend : Except SolveError ILPSolution) :
    (∀ nodes, solve state.demands state.suitable_offerings
        SolveOptions.default_ backend = .ok (.AllPlaced nodes) →
      reconcile_pods state backend =
        .ok (nodes.map (fun node => ⟨"PoolsAreFake", node.offering⟩))) ∧
    (∀ nodes unmet, solve state.demands state.suitable_offerings
        SolveOptions.default_ backend = .ok (.IncompletePlacement nodes unmet) →
      reconcile_pods state backend =
        .ok (nodes.map (fun node => ⟨"PoolsAreFake", node.offering⟩))) ∧
    (solve state.demands state.suitable_offerings
        SolveOptions.default_ backend = .ok .NoDemands →
      reconcile_pods state backend = .ok []) ∧
    (∀ pool uuid, node_request_name pool uuid = pool ++ "-" ++ uuid) := by
  refine ⟨?_, ?_, ?_, fun pool uuid => rfl⟩
  · intro nodes h
    rw [reconcile_pods, h]
  · intro nodes unmet h
    rw [reconcile_pods, h]
  · intro h
    rw [reconcile_pods, h]

/-- Witness for C6: a fitting single demand; the filtered catalogue keeps
the offering, the backend places the demand, and reconcile_pods emits one
PoolsAreFake action carrying that offering. -/
theorem reconcile_pods_one_demand_per_node_witness :
    solve (⟨[wDemand], [wOffering]⟩ : ClusterState).demands
      (⟨[wDemand], [wOffering]⟩ : ClusterState).suitable_offerings
      SolveOptions.default_ (.ok wSol) =
      .ok (.AllPlaced [⟨wOffering, [wDemand.id]⟩]) ∧
    reconcile_pods ⟨[wDemand], [wOffering]⟩ (.ok wSol) =
      .ok [⟨"PoolsAreFake", wOffering⟩] := by
  have hsuit : (⟨[wDemand], [wOffering]⟩ : ClusterState).suitable_offerings =
      [wOffering] := rfl
  have hsolve : solve (⟨[wDemand], [wOffering]⟩ : ClusterState).demands
      (⟨[wDemand], [wOffering]⟩ : ClusterState).suitable_offerings
      SolveOptions.default_ (.ok wSol) =
      .ok (.AllPlaced [⟨wOffering, [wDemand.id]⟩]) := by
    rw [hsuit]
    show solve [wDemand] [wOffering] SolveOptions.default_ (.ok wSol) = _
    rw [solve, if_neg (by simp), if_neg (by simp)]
    rw [show wSol = boolSol (fun d c => d == 0 && c == 0) (fun c => c == 0)
      (fun _ => false) from rfl]
    rw [extract_single]
  refine ⟨hsolve, ?_⟩
  have h := (reconcile_pods_one_demand_per_node ⟨[wDemand], [wOffering]⟩
    (.ok wSol)).1 [⟨wOffering, [wDemand.id]⟩] hsolve
  rw [h]
  rfl

/- ── C2: pre-filtering the catalogue is not outcome-preserving ──────── -/

/-- Counterexample for C2: for the cluster state pairing one GPU demand
with one GPU-less offering that fits it on cpu and memory, the claimed
equivalence fails.  suitable_offerings removes the offering (satisfies
checks the GPU), so the filtered solve is forced to report the demand
unmet, while the full catalogue admits a feasible binary assignment — the
ILP has no GPU constraint — whose outcome is AllPlaced. -/
theorem prefilter_changes_outcome :
    ¬ prefilterPreservesOutcome gState SolveOptions.default_ := by
  intro h
  have hbin : binarySolution gState.demands.length
      (build_candidate_offerings gState.offerings 10).length wSol :=
    binarySolution_boolSol _ _ _ _ _
  have hcon : satisfiesConstraints gState.demands gState.offerings
      (build_candidate_offerings gState.offerings 10) wSol :=
    constraints_single gDemand cpuOffering (by norm_num [gDemand, cpuOffering])
      (by norm_num [gDemand, cpuOffering])
  obtain ⟨sol', _, _, heq⟩ := h wSol hbin hcon
  have hsuit : gState.suitable_offerings = [] := rfl
  rw [hsuit] at heq
  have hl : solve gState.demands [] SolveOptions.default_ (.ok sol') =
      .ok (.IncompletePlacement [] gState.demands) := by
    rw [solve.eq_def, if_neg (by simp [gState])]
    simp
  have hr : solve gState.demands gState.offerings SolveOptions.default_
      (.ok wSol) = .ok (.AllPlaced [⟨cpuOffering, [gDemand.id]⟩]) := by
    show solve [gDemand] [cpuOffering] SolveOptions.default_ (.ok wSol) = _
    rw [solve, if_neg (by simp), if_neg (by simp)]
    rw [show wSol = boolSol (fun d c => d == 0 && c == 0) (fun c => c == 0)
      (fun _ => false) from rfl]
    rw [extract_single]
  rw [hl, hr] at heq
  simp at heq

/-- C2 (amended): pre-filtering can change solve's outcome, because
satisfies checks gpu, gpu-model and ephemeral storage while the ILP
enforces only cpu and memory capacity.  What does hold: when every demand
requests no gpu, no gpu model and no ephemeral storage — so satisfies
reduces to the cpu/memory comparison — an offering that
suitable_offerings removes can host no demand in any feasible binary
assignment for the full catalogue: every placement variable on its
candidates is 0. -/
theorem prefilter_removes_only_unplaceable (state : ClusterState)
    (sol : ILPSolution)
    (hbin : binarySolution state.demands.length
      (build_candidate_offerings state.offerings 10).length sol)
    (hcon : satisfiesConstraints state.demands state.offerings
      (build_candidate_offerings state.offerings 10) sol)
    (hplain : ∀ dm ∈ state.demands, dm.resources.gpu = 0 ∧
      dm.resources.gpu_model = none ∧ dm.resources.ephemeral_storage_gib = none)
    (t : Nat) (_ht : t < state.offerings.length)
    (hrem : ∀ dm ∈ state.demands,
      (state.offerings.getD t default).satisfies dm.resources = false)
    (c : Nat) (hc : c < (build_candidate_offerings state.offerings 10).length)
    (hct : ((build_candidate_offerings state.offerings 10).getD c (0, 0)).1 = t)
    (d : Nat) (hd : d < state.demands.length) :
    sol.placements d c = 0 := by
  rcases hbin.1 d hd c hc with h0 | h1
  · exact h0
  exfalso
  have hdm_mem : state.demands.getD d default ∈ state.demands := by
    rw [List.getD_eq_getElem state.demands default hd]
    exact List.getElem_mem hd
  have hnonneg : ∀ g : PodResources → Nat,
      ∀ d' ∈ Finset.range state.demands.length,
      0 ≤ sol.placements d' c * ((g (state.demands.getD d' default) : ℚ)) := by
    intro g d' hd'
    rcases hbin.1 d' (Finset.mem_range.mp hd') c hc with h | h
    · rw [h]
      simp
    · rw [h]
      simp
  have hterm : ∀ g : PodResources → Nat,
      sol.placements d c * ((g (state.demands.getD d default) : ℚ)) ≤
        ∑ d' ∈ Finset.range state.demands.length,
          sol.placements d' c * ((g (state.demands.getD d' default) : ℚ)) :=
    fun g => Finset.single_le_sum (hnonneg g) (Finset.mem_range.mpr hd)
  have hcpuQ : (((state.demands.getD d default).resources.cpu : ℚ)) ≤
      (((state.offerings.getD t default).resources.cpu : ℚ)) := by
    have hcap := (hcon.2.2 c hc).1
    rw [hct] at hcap
    calc (((state.demands.getD d default).resources.cpu : ℚ))
        = sol.placements d c *
            (((state.demands.getD d default).resources.cpu : ℚ)) := by
          rw [h1, one_mul]
      _ ≤ _ := hterm (fun p => p.resources.cpu)
      _ ≤ _ := hcap
  have hmemQ : (((state.demands.getD d default).resources.memory_mib : ℚ)) ≤
      (((state.offerings.getD t default).resources.memory_mib : ℚ)) := by
    have hcap := (hcon.2.2 c hc).2
    rw [hct] at hcap
    calc (((state.demands.getD d default).resources.memory_mib : ℚ))
        = sol.placements d c *
            (((state.demands.getD d default).resources.memory_mib : ℚ)) := by
          rw [h1, one_mul]
      _ ≤ _ := hterm (fun p => p.resources.memory_mib)
      _ ≤ _ := hcap
  obtain ⟨hg, hgm, hes⟩ := hplain _ hdm_mem
  have hsat : (state.offerings.getD t default).satisfies
      (state.demands.getD d default).resources = true := by
    rw [offering_satisfies_iff]
    refine ⟨by exact_mod_cast hcpuQ, by exact_mod_cast hmemQ, ?_, ?_, ?_⟩
    · rw [hg]
      exact Nat.zero_le _
    · intro gm hgm'
      rw [hgm] at hgm'
      cases hgm'
    · intro st hst
      rw [hes] at hst
      cases hst
  rw [hrem _ hdm_mem] at hsat
  cases hsat

/-- Witness for the amended C2: one cpu/memory-only demand and one
offering too small for it; the offering is removed by the filter, and in
the feasible all-unmet assignment the placement variable on the removed
offering's fourth candidate is 0. -/
theorem prefilter_removes_only_unplaceable_witness :
    binarySolution (⟨[wDemand], [tinyOffering]⟩ : ClusterState).demands.length
      (build_candidate_offerings
        (⟨[wDemand], [tinyOffering]⟩ : ClusterState).offerings 10).length uSol ∧
    satisfiesConstraints (⟨[wDemand], [tinyOffering]⟩ : ClusterState).demands
      (⟨[wDemand], [tinyOffering]⟩ : ClusterState).offerings
      (build_candidate_offerings
        (⟨[wDemand], [tinyOffering]⟩ : ClusterState).offerings 10) uSol ∧
    (∀ dm ∈ (⟨[wDemand], [tinyOffering]⟩ : ClusterState).demands,
      dm.resources.gpu = 0 ∧ dm.resources.gpu_model = none ∧
      dm.resources.ephemeral_storage_gib = none) ∧
    (∀ dm ∈ (⟨[wDemand], [tinyOffering]⟩ : ClusterState).demands,
      ((⟨[wDemand], [tinyOffering]⟩ : ClusterState).offerings.getD 0
        default).satisfies dm.resources = false) ∧
    uSol.placements 0 3 = 0 := by
  have hbin : binarySolution
      (⟨[wDemand], [tinyOffering]⟩ : ClusterState).demands.length
      (build_candidate_offerings
        (⟨[wDemand], [tinyOffering]⟩ : ClusterState).offerings 10).length uSol :=
    binarySolution_boolSol _ _ _ _ _
  have hcon : satisfiesConstraints
      (⟨[wDemand], [tinyOffering]⟩ : ClusterState).demands
      (⟨[wDemand], [tinyOffering]⟩ : ClusterState).offerings
      (build_candidate_offerings
        (⟨[wDemand], [tinyOffering]⟩ : ClusterState).offerings 10) uSol :=
    constraints_single_unmet wDemand tinyOffering
  have hplain : ∀ dm ∈ (⟨[wDemand], [tinyOffering]⟩ : ClusterState).demands,
      dm.resources.gpu = 0 ∧ dm.resources.gpu_model = none ∧
      dm.resources.ephemeral_storage_gib = none := by
    intro dm hdm
    have : dm = wDemand := by simpa using hdm
    subst this
    exact ⟨rfl, rfl, rfl⟩
  have hrem : ∀ dm ∈ (⟨[wDemand], [tinyOffering]⟩ : ClusterState).demands,
      ((⟨[wDemand], [tinyOffering]⟩ : ClusterState).offerings.getD 0
        default).satisfies dm.resources = false := by
    intro dm hdm
    have : dm = wDemand := by simpa using hdm
    subst this
    rfl
  refine ⟨hbin, hcon, hplain, hrem, ?_⟩
  exact prefilter_removes_only_unplaceable ⟨[wDemand], [tinyOffering]⟩ uSol
    hbin hcon hplain 0 (by simp) hrem 3
    (by rw [show (build_candidate_offerings
      (⟨[wDemand], [tinyOffering]⟩ : ClusterState).offerings 10).length = 10
      from rfl]; omega)
    rfl 0 (by simp)

/- ── C8: fake-provider node ids ─────────────────────────────────────── -/

lemma decChar_inj : ∀ a, a < 10 → ∀ b, b < 10 → decChar a = decChar b → a = b := by
  decide

lemma map_decChar_inj : ∀ l₁ l₂ : List Nat, (∀ x ∈ l₁, x < 10) →
    (∀ x ∈ l₂, x < 10) → l₁.map decChar = l₂.map decChar → l₁ = l₂ := by
  intro l₁
  induction l₁ with
  | nil =>
    intro l₂ _ _ h
    cases l₂ with
    | nil => rfl
    | cons b t2 => simp at h
  | cons a t ih =>
    intro l₂ h1 h2 h
    cases l₂ with
    | nil => simp at h
    | cons b t2 =>
      simp only [List.map_cons, List.cons.injEq] at h
      have hab : a = b :=
        decChar_inj a (h1 a (List.mem_cons_self a t)) b
          (h2 b (List.mem_cons_self b t2)) h.1
      have ht2 : t = t2 :=
        ih t2 (fun x hx => h1 x (List.mem_cons_of_mem a hx))
          (fun x hx => h2 x (List.mem_cons_of_mem b hx)) h.2
      rw [hab, ht2]

lemma natToString_inj_pos {m n : Nat} (hm : 0 < m) (hn : 0 < n)
    (h : natToString m = natToString n) : m = n := by
  rw [natToString, natToString, if_neg (Nat.pos_iff_ne_zero.mp hm),
    if_neg (Nat.pos_iff_ne_zero.mp hn)] at h
  have hdata : ((Nat.digits 10 m).map decChar).reverse =
      ((Nat.digits 10 n).map decChar).reverse := congrArg String.data h
  have hmap : (Nat.digits 10 m).map decChar = (Nat.digits 10 n).map decChar :=
    List.reverse_injective hdata
  have hdig : Nat.digits 10 m = Nat.digits 10 n :=
    map_decChar_inj _ _ (fun x hx => Nat.digits_lt_base (by norm_num) hx)
      (fun x hx => Nat.digits_lt_base (by norm_num) hx) hmap
  have := congrArg (Nat.ofDigits 10) hdig
  rwa [Nat.ofDigits_digits, Nat.ofDigits_digits] at this

/-- One create() call either fails and leaves the id counter alone, or
succeeds, returns fake-node-{counter}, and bumps the counter by one. -/
lemma create_step (st : FakeProviderState) (off : Offering) :
    ((∃ e, (FakeProvider.create st off).1 = .error e) ∧
      (FakeProvider.create st off).2.next_id = st.next_id) ∨
    ((FakeProvider.create st off).1 =
        .ok ⟨"fake-node-" ++ natToString st.next_id⟩ ∧
      (FakeProvider.create st off).2.next_id = st.next_id + 1) := by
  rw [FakeProvider.create]
  cases hb : st.create_behaviors with
  | nil =>
    cases st.default_create
    case Succeed => right; exact ⟨rfl, rfl⟩
    case SucceedButNodeNeverJoins => right; exact ⟨rfl, rfl⟩
    case SucceedAfterDelay d => right; exact ⟨rfl, rfl⟩
    case OfferingUnavailable => left; exact ⟨⟨_, rfl⟩, rfl⟩
    case CreationFailed msg => left; exact ⟨⟨_, rfl⟩, rfl⟩
    case JoinTimeout => left; exact ⟨⟨_, rfl⟩, rfl⟩
    case InternalError msg => left; exact ⟨⟨_, rfl⟩, rfl⟩
  | cons b rest =>
    cases b
    case Succeed => right; exact ⟨rfl, rfl⟩
    case SucceedButNodeNeverJoins => right; exact ⟨rfl, rfl⟩
    case SucceedAfterDelay d => right; exact ⟨rfl, rfl⟩
    case OfferingUnavailable => left; exact ⟨⟨_, rfl⟩, rfl⟩
    case CreationFailed msg => left; exact ⟨⟨_, rfl⟩, rfl⟩
    case JoinTimeout => left; exact ⟨⟨_, rfl⟩, rfl⟩
    case InternalError msg => left; exact ⟨⟨_, rfl⟩, rfl⟩

lemma runCreates_successIds (offs : List Offering) :
    ∀ st : FakeProviderState, ∃ k,
      successIds (runCreates st offs).1 =
        (List.range' st.next_id k).map
          (fun n => (⟨"fake-node-" ++ natToString n⟩ : NodeId)) ∧
      (runCreates st offs).2.next_id = st.next_id + k := by
  induction offs with
  | nil =>
    intro st
    exact ⟨0, rfl, rfl⟩
  | cons off rest ih =>
    intro st
    obtain ⟨k, hk1, hk2⟩ := ih (FakeProvider.create st off).2
    rcases create_step st off with ⟨⟨e, he⟩, hid⟩ | ⟨hok, hid⟩
    · refine ⟨k, ?_, ?_⟩
      · rw [runCreates]
        simp only [successIds, List.filterMap_cons, he, Except.toOption]
        rw [← successIds, hk1, hid]
      · rw [runCreates]
        simp only [hk2, hid]
    · refine ⟨k + 1, ?_, ?_⟩
      · rw [runCreates]
        simp only [successIds, List.filterMap_cons, hok, Except.toOption]
        rw [← successIds, hk1, hid, List.range'_succ, List.map_cons]
      · rw [runCreates]
        rw [hk2, hid]
        omega

/-- C8: for any one FakeProvider instance — whatever behaviours are queued
and whatever the default is — the successful create() calls return exactly
the ids fake-node-1, fake-node-2, …, in order: the counter starts at 1 and
strictly increases, and the returned NodeIds are pairwise distinct. -/
theorem fake_provider_distinct_node_ids (behaviors : List CreateBehavior)
    (dflt : CreateBehavior) (offs : List Offering) :
    ∃ k,
      successIds (runCreates { FakeProvider.new with
          create_behaviors := behaviors, default_create := dflt } offs).1 =
        (List.range' 1 k).map
          (fun n => (⟨"fake-node-" ++ natToString n⟩ : NodeId)) ∧
      (successIds (runCreates { FakeProvider.new with
          create_behaviors := behaviors, default_create := dflt } offs).1).Nodup := by
  obtain ⟨k, h1, _⟩ := runCreates_successIds offs
    { FakeProvider.new with create_behaviors := behaviors, default_create := dflt }
  refine ⟨k, h1, ?_⟩
  rw [h1]
  apply List.Nodup.map_on ?_ (List.nodup_range' _ _ 1 Nat.one_pos)
  intro x hx y hy hxy
  have hx1 : 1 ≤ x := by
    obtain ⟨i, _, hxi⟩ := List.mem_range'.mp hx
    have hxx : x = 1 + 1 * i := hxi
    omega
  have hy1 : 1 ≤ y := by
    obtain ⟨i, _, hyi⟩ := List.mem_range'.mp hy
    have hyy : y = 1 + 1 * i := hyi
    omega
  have hs : "fake-node-" ++ natToString x = "fake-node-" ++ natToString y :=
    congrArg NodeId.val hxy
  have hdata : ("fake-node-" ++ natToString x).data =
      ("fake-node-" ++ natToString y).data := congrArg String.data hs
  rw [String.data_append, String.data_append] at hdata
  exact natToString_inj_pos hx1 hy1 (String.ext (List.append_cancel_left hdata))

end GrowthRs
